import Mathlib

/-!
Verification of the WQP seeding/update program (`src/dbseeder/programs.py`)
against its natural-language specification.

The embedding models Python rows as association lists of Python-like values,
the `_WQX-` marker machinery over character lists, and the database-facing
helpers as pure functions parameterised by the external collaborators
(reprojection, casting, normalisation, the destination table contents and
per-row execution outcomes).
-/

/-- Character-list strings; Python (2) `str` values are modelled as `List Char`. -/
abbrev Chars := List Char

/-- A Python value as it occurs in the rows handled by the program:
`None`, a string, or a number (coordinates, codes). -/
inductive Val
  | none
  | str (s : Chars)
  | num (n : Int)
deriving DecidableEq, Repr

/-- Python truthiness for the values above: `None`, the empty string and `0`
are falsy, everything else is truthy (`if not (x and y)` in `_update_row`). -/
def truthy : Val → Bool
  | Val.none => false
  | Val.str s => !s.isEmpty
  | Val.num n => n != 0

/-- A Python dict, modelled as an association list from values to values
(Python dict keys are values; in this program they are strings). -/
abbrev Row := List (Val × Val)

/-- Dict lookup `r[k]` returning `none` on a missing key (Python `KeyError`). -/
def rget (r : Row) (k : Val) : Option Val :=
  match r with
  | [] => Option.none
  | (k', v) :: rest => if k' = k then some v else rget rest k

/-- Dict assignment `r[k] = v`: overwrite the existing binding, else add one. -/
def rset (r : Row) (k : Val) (v : Val) : Row :=
  match r with
  | [] => [(k, v)]
  | (k', v') :: rest => if k' = k then (k, v) :: rest else (k', v') :: rset rest k v

/-- `dict.values()`: the values of a row in binding order. -/
def rowValues (r : Row) : List Val := r.map Prod.snd

/-- `dict(pairs)`: build a dict from key/value pairs, later keys overwriting. -/
def dictOfPairs (pairs : List (Val × Val)) : Row :=
  pairs.foldl (fun r p => rset r p.1 p.2) []

/-! ## The `_WQX-` marker (`wqx_re = re.compile('(_WQX)-')`) -/

/-- `wqx_re.search(s)`: does `s` contain the substring `_WQX-`? -/
def hasWqx : Chars → Bool
  | '_' :: 'W' :: 'Q' :: 'X' :: '-' :: _ => true
  | _ :: rest => hasWqx rest
  | [] => false

/-- `re.sub(wqx_re, '-', s)`: replace every (leftmost, non-overlapping)
occurrence of `_WQX-` with `-`. -/
def stripWqx : Chars → Chars
  | '_' :: 'W' :: 'Q' :: 'X' :: '-' :: rest => '-' :: stripWqx rest
  | c :: rest => c :: stripWqx rest
  | [] => []

/-- Whether `WQX` occurs as a substring. -/
def hasSubWqx : Chars → Bool
  | 'W' :: 'Q' :: 'X' :: _ => true
  | _ :: rest => hasSubWqx rest
  | [] => false

/-- SQL `LIKE '%_WQX%'` (the `wqxids` query): `_` matches any single
character, so the pattern holds exactly when `WQX` occurs at index ≥ 1. -/
def likeWqx (s : Chars) : Bool :=
  hasSubWqx (s.drop 1)

/-! ## `_get_wqx_duplicate_ids` (programs.py lines 366-386)

Two branches: a station CSV file (ids pulled by the `wqxids` `LIKE` query,
header row popped, every returned id stripped) and an in-memory list of
already-mapped station rows (rows whose `StationId` matches `wqx_re` are
kept and their ids stripped). The Python result is a `set`; the embedding
returns the list of stripped ids, and the theorems speak of membership. -/

/-- The destination key `StationId`. -/
def kStationId : Val := Val.str ("StationId".data)

/-- `station['StationId']` as used under `wqx_re.search`: a missing key is a
`KeyError`, a non-string id a `TypeError`; both are modelled as errors. -/
def stationIdOf (r : Row) : Except Unit Chars :=
  match rget r kStationId with
  | some (Val.str s) => Except.ok s
  | _ => Except.error ()

/-- The in-memory branch of `_get_wqx_duplicate_ids`:
`set([re.sub(wqx_re, '-', s['StationId']) for s in filter(wqx_re.search(...), stations)])`. -/
def getWqxDuplicateIds (stations : List Row) : Except Unit (List Chars) :=
  match stations with
  | [] => Except.ok []
  | r :: rest =>
    match stationIdOf r with
    | Except.error e => Except.error e
    | Except.ok s =>
      match getWqxDuplicateIds rest with
      | Except.error e => Except.error e
      | Except.ok tail =>
        if hasWqx s then Except.ok (stripWqx s :: tail) else Except.ok tail

/-- Modelled from the spec: the filtered bulk reader (`query_csv`, not under
`src/`) evaluating the `wqxids` query over a station file whose id column is
`fileIds`; it returns a header row followed by the ids matching
`LIKE '%_WQX%'`. -/
def wqxIdsQueryRows (fileIds : List Chars) : List Chars :=
  ("MonitoringLocationIdentifier".data) :: fileIds.filter likeWqx

/-- The file branch of `_get_wqx_duplicate_ids`: run the `wqxids` query, pop
the header row, and strip every remaining id. -/
def getWqxDuplicateIdsFile (fileIds : List Chars) : List Chars :=
  ((wqxIdsQueryRows fileIds).tail).map stripWqx

/-! ## `_remove_existing_wqx_station_ids` (programs.py lines 605-631) -/

/-- Modelled from the source's `new_stations` SQL (executed by the external
driver): of the candidate ids, keep those with no matching `StationId` row in
the destination `Stations` table `db`. -/
def getUniqueStationIds (db : List Chars) (stationIds : List Chars) : List Chars :=
  stationIds.filter (fun s => !db.contains s)

/-- One Python `for` pass of `for id in lst: if shouldRemove id: lst.remove(id)`
with explicit fuel: the list is mutated while the iterator's index keeps
advancing, so after a removal the element that slid into the removed slot is
never visited. `List.erase` matches `list.remove` (first occurrence). The
measure `lst.length - idx` drops by at least one per iteration, so fuel equal
to it makes the cutoff unreachable. -/
def pyForRemoveAux (shouldRemove : Chars → Bool) : Nat → List Chars → Nat → List Chars
  | 0, lst, _ => lst
  | fuel + 1, lst, idx =>
    if h : idx < lst.length then
      let x := lst.get ⟨idx, h⟩
      if shouldRemove x then pyForRemoveAux shouldRemove fuel (lst.erase x) (idx + 1)
      else pyForRemoveAux shouldRemove fuel lst (idx + 1)
    else lst

/-- Python's mutate-while-iterating removal loop, started at index `idx`. -/
def pyForRemove (shouldRemove : Chars → Bool) (lst : List Chars) (idx : Nat) : List Chars :=
  pyForRemoveAux shouldRemove (lst.length - idx) lst idx

/-- Membership in the `uniques` set of `_remove_existing_wqx_station_ids`:
the stripped forms of the marker-suffixed candidates that are not yet stored
in the destination. (Python builds it as a `set`; only membership is used.) -/
def inUniques (db : List Chars) (stationIds : List Chars) (s : Chars) : Bool :=
  (getUniqueStationIds db ((stationIds.filter hasWqx).map stripWqx)).contains s

/-- `_remove_existing_wqx_station_ids(station_ids)`, with the destination
`Stations` table contents `db` made explicit. -/
def removeExistingWqxStationIds (db : List Chars) (stationIds : List Chars) : List Chars :=
  if (stationIds.filter hasWqx).isEmpty then stationIds
  else pyForRemove (fun id => !inUniques db stationIds (stripWqx id)) stationIds 0

/-- The effect of the mutate-while-iterating loop on a duplicate-free list:
a left-to-right scan that removes flagged elements but leaves the element
immediately following a removal unvisited. -/
def scanRemoveSkip (shouldRemove : Chars → Bool) : List Chars → List Chars
  | [] => []
  | [x] => if shouldRemove x then [] else [x]
  | x :: y :: rest2 =>
    if shouldRemove x then y :: scanRemoveSkip shouldRemove rest2
    else x :: scanRemoveSkip shouldRemove (y :: rest2)

/-! ## `_etl_column_names` (programs.py lines 403-431)

The Python argument `rows` is dynamically one of: a dict (already mapped),
a flat list of scalar cells (one record), or a list of tuples (many records);
the embedding splits these into constructors. `header` is the optional
externally-supplied header. -/

/-- A field-mapping table such as `station_config` (an `OrderedDict`). -/
abbrev Config := List (Val × Val)

/-- `return_value_if_not_in_config`: map a header cell through the config,
keeping cells that are not config keys. -/
def mapHeaderCell (config : Config) (k : Val) : Val :=
  match rget config k with
  | some v => v
  | Option.none => k

/-- `header = map(return_value_if_not_in_config, header)`. -/
def mapHeader (config : Config) (h : List Val) : List Val :=
  h.map (mapHeaderCell config)

/-- Python (2) iteration over a value, used when the popped header cell of a
flat record is iterated: a `str` yields its one-character strings, any other
value raises `TypeError`. -/
def valIter : Val → Option (List Val)
  | Val.str s => some (s.map (fun c => Val.str [c]))
  | _ => Option.none

/-- The dynamic shapes of the `rows` argument of `_etl_column_names`. -/
inductive EtlInput
  | dict (r : Row)
  | flat (cells : List Val)
  | table (records : List (List Val))

/-- The possible outcomes of `_etl_column_names`: a single mapped row, a list
of mapped rows, Python `None` (empty input), or an uncaught exception
(`IndexError`/`TypeError` on inputs outside the intended shapes). -/
inductive EtlOutput
  | dict (r : Row)
  | rows (rs : List Row)
  | noneRes
  | err

/-- `dict(zip(header, cells))`: zip truncates at the shorter list, later
duplicate keys overwrite earlier ones. -/
def zipRow (header : List Val) (cells : List Val) : Row :=
  dictOfPairs (header.zip cells)

/-- `_etl_column_names(rows, config, header=None)`. A dict passes through
untouched; an empty list returns `None`; otherwise the header is taken from
the argument or popped from the input, mapped through the config, and zipped
against each record (`rows[0]` after the pop raises `IndexError` when nothing
remains, and iterating a non-string popped header cell raises `TypeError`). -/
def etlColumnNames (rows : EtlInput) (config : Config) (header : Option (List Val)) : EtlOutput :=
  match rows with
  | EtlInput.dict r => EtlOutput.dict r
  | EtlInput.flat [] => EtlOutput.noneRes
  | EtlInput.flat (c0 :: rest) =>
    match header with
    | some h => EtlOutput.dict (zipRow (mapHeader config h) (c0 :: rest))
    | Option.none =>
      match valIter c0 with
      | Option.none => EtlOutput.err
      | some hdrCells =>
        match rest with
        | [] => EtlOutput.err
        | _ => EtlOutput.dict (zipRow (mapHeader config hdrCells) rest)
  | EtlInput.table [] => EtlOutput.noneRes
  | EtlInput.table (r0 :: rest) =>
    match header with
    | some h => EtlOutput.rows ((r0 :: rest).map (fun rec => zipRow (mapHeader config h) rec))
    | Option.none =>
      match rest with
      | [] => EtlOutput.err
      | _ => EtlOutput.rows (rest.map (fun rec => zipRow (mapHeader config r0) rec))

/-- `station_config` (programs.py lines 68-102). -/
def stationConfig : Config :=
  [(Val.str ("OrganizationIdentifier".data), Val.str ("OrgId".data)),
   (Val.str ("OrganizationFormalName".data), Val.str ("OrgName".data)),
   (Val.str ("MonitoringLocationIdentifier".data), Val.str ("StationId".data)),
   (Val.str ("MonitoringLocationName".data), Val.str ("StationName".data)),
   (Val.str ("MonitoringLocationTypeName".data), Val.str ("StationType".data)),
   (Val.str ("MonitoringLocationDescriptionText".data), Val.str ("StationComment".data)),
   (Val.str ("HUCEightDigitCode".data), Val.str ("HUC8".data)),
   (Val.str ("LongitudeMeasure".data), Val.str ("Lon_X".data)),
   (Val.str ("LatitudeMeasure".data), Val.str ("Lat_Y".data)),
   (Val.str ("HorizontalAccuracyMeasure/MeasureValue".data), Val.str ("HorAcc".data)),
   (Val.str ("HorizontalAccuracyMeasure/MeasureUnitCode".data), Val.str ("HorAccUnit".data)),
   (Val.str ("HorizontalCollectionMethodName".data), Val.str ("HorCollMeth".data)),
   (Val.str ("HorizontalCoordinateReferenceSystemDatumName".data), Val.str ("HorRef".data)),
   (Val.str ("VerticalMeasure/MeasureValue".data), Val.str ("Elev".data)),
   (Val.str ("VerticalMeasure/MeasureUnitCode".data), Val.str ("ElevUnit".data)),
   (Val.str ("VerticalAccuracyMeasure/MeasureValue".data), Val.str ("ElevAcc".data)),
   (Val.str ("VerticalAccuracyMeasure/MeasureUnitCode".data), Val.str ("ElevAccUnit".data)),
   (Val.str ("VerticalCollectionMethodName".data), Val.str ("ElevMeth".data)),
   (Val.str ("VerticalCoordinateReferenceSystemDatumName".data), Val.str ("ElevRef".data)),
   (Val.str ("StateCode".data), Val.str ("StateCode".data)),
   (Val.str ("CountyCode".data), Val.str ("CountyCode".data)),
   (Val.str ("AquiferName".data), Val.str ("Aquifer".data)),
   (Val.str ("FormationTypeText".data), Val.str ("FmType".data)),
   (Val.str ("AquiferTypeName".data), Val.str ("AquiferType".data)),
   (Val.str ("ConstructionDateText".data), Val.str ("ConstDate".data)),
   (Val.str ("WellDepthMeasure/MeasureValue".data), Val.str ("Depth".data)),
   (Val.str ("WellDepthMeasure/MeasureUnitCode".data), Val.str ("DepthUnit".data)),
   (Val.str ("WellHoleDepthMeasure/MeasureValue".data), Val.str ("HoleDepth".data)),
   (Val.str ("WellHoleDepthMeasure/MeasureUnitCode".data), Val.str ("HoleDUnit".data)),
   (Val.str ("demELEVm".data), Val.str ("!demELEVm".data)),
   (Val.str ("DataSource".data), Val.str ("!DataSource".data)),
   (Val.str ("WIN".data), Val.str ("!WIN".data)),
   (Val.str ("Shape".data), Val.str ("!Shape".data))]

/-! ## `_update_row` (programs.py lines 438-458) -/

/-- The key `Lon_X`. -/
def kLonX : Val := Val.str ("Lon_X".data)

/-- The key `Lat_Y`. -/
def kLatY : Val := Val.str ("Lat_Y".data)

/-- The key `Shape`. -/
def kShape : Val := Val.str ("Shape".data)

/-- The key `DataSource`. -/
def kDataSource : Val := Val.str ("DataSource".data)

/-- The constant `WqpProgram.datasource = 'WQP'`. -/
def wqpDataSource : Val := Val.str ("WQP".data)

/-- The WKT/cast template
`geometry::STGeomFromText('POINT ({} {})', 26912)` with the two rendered
projected coordinates substituted for the placeholders (`sq` is the single
quote, kept out of string literals). -/
def wktTemplate (x y : Chars) : Chars :=
  ("geometry::STGeomFromText(".data) ++ [Char.ofNat 39] ++ ("POINT (".data)
    ++ x ++ [' '] ++ y ++ (")".data) ++ [Char.ofNat 39] ++ (", 26912)".data)

/-- `_update_row(row)` with the external collaborator
`str(Reproject.to_utm(x, y)[0]), str(Reproject.to_utm(x, y)[1])` supplied as
the abstract `toUtm`. The data source is set first; then both coordinates are
read (`KeyError` — modelled as `Except.error` — when a key is absent), and
the shape is rewritten only when both are truthy and a `Shape` key exists. -/
def updateRow (toUtm : Val → Val → Chars × Chars) (row : Row) : Except Unit Row :=
  let r1 := rset row kDataSource wqpDataSource
  match rget r1 kLonX, rget r1 kLatY with
  | some x, some y =>
    if !(truthy x && truthy y) then Except.ok r1
    else if (rget r1 kShape).isNone then Except.ok r1
    else Except.ok (rset r1 kShape (Val.str (wktTemplate (toUtm x y).1 (toUtm x y).2)))
  | _, _ => Except.error ()

/-! ## `_seed_stations` (programs.py lines 281-312)

The external collaborators of the pipeline (`Caster.cast` with
`schema.station`, `Normalizer.normalize_station`,
`Normalizer.reorder_filter` with `schema.station`, `Caster.cast_for_sql`,
and `Reproject.to_utm` composed with `str`) are abstract row transforms. -/

/-- The external collaborators used by `_seed_stations` (spec section 6). -/
structure SeedParams where
  cast : Row → Row
  normalizeStation : Row → Row
  reorderFilter : Row → Row
  castForSql : Row → Row
  toUtm : Val → Val → Chars × Chars

/-- The body of the `for row in rows` loop of `_seed_stations`:
map the column names, skip a bare duplicate, then
cast / `_update_row` / normalize / reorder-filter / render, yielding
`row.values()`. `ok none` is the `continue`; `error` is an uncaught
exception (`KeyError` on `StationId`, `TypeError` in `wqx_re.search`, or a
`KeyError` inside `_update_row`). -/
def seedStationRow (p : SeedParams) (header : Option (List Val)) (wqx : List Chars)
    (row : EtlInput) : Except Unit (Option (List Val)) :=
  match etlColumnNames row stationConfig header with
  | EtlOutput.dict r =>
    match rget r kStationId with
    | some (Val.str sid) =>
      if !hasWqx sid && wqx.contains sid then Except.ok Option.none
      else
        match updateRow p.toUtm (p.cast r) with
        | Except.error e => Except.error e
        | Except.ok r3 =>
          Except.ok (some (rowValues (p.castForSql (p.reorderFilter (p.normalizeStation r3)))))
    | _ => Except.error ()
  | _ => Except.error ()

/-- `_seed_stations(rows, header, wqx)` up to the sink: the list of rendered
value rows appended to `stations` and handed to `_insert_rows`. -/
def seedStations (p : SeedParams) (header : Option (List Val)) (wqx : List Chars) :
    List EtlInput → Except Unit (List (List Val))
  | [] => Except.ok []
  | row :: rest =>
    match seedStationRow p header wqx row with
    | Except.error e => Except.error e
    | Except.ok Option.none => seedStations p header wqx rest
    | Except.ok (some vals) =>
      match seedStations p header wqx rest with
      | Except.error e => Except.error e
      | Except.ok out => Except.ok (vals :: out)

/-! ## `WqpProgram.__init__` folder checks (programs.py lines 149-177) -/

/-- Python `a or b` on strings: the first operand when truthy. -/
def pyOrStr (a b : String) : String := if a ≠ ("") then a else b

/-- `os.path.join(a, b)` for a relative second component. -/
def pathJoin (a b : String) : String := a ++ ("/") ++ b

/-- The folder validation of `WqpProgram.__init__(db, file_location)` over an
abstract file system `isdir`: `ok none` is the update mode
(`file_location is None`), `ok (results, stations)` the folders stored for
seeding, `error` the raised configuration exception. The child check is
written exactly as in the source: `if not isdir(results_folder or
stations_folder)`. -/
def wqpInit (isdir : String → Bool) (fileLocation : Option String) :
    Except String (Option (String × String)) :=
  match fileLocation with
  | Option.none => Except.ok Option.none
  | some loc =>
    let parentFolder := pathJoin loc ("WQP")
    if !isdir parentFolder then
      Except.error (("Pass in a location to the parent folder that contains WQP. ") ++ parentFolder)
    else
      let resultsFolder := pathJoin parentFolder ("Results")
      let stationsFolder := pathJoin parentFolder ("Stations")
      if !isdir (pyOrStr resultsFolder stationsFolder) then
        Except.error ("WQP folder is missing Results or Stations child folders containing csv files.")
      else Except.ok (some (resultsFolder, stationsFolder))

/-! ## `_insert_rows` (programs.py lines 460-484)

The cursor is an external resource; what the claims need is the sequence of
`execute`/`commit` calls issued to it and whether the call re-raised. The
outcome of executing the k-th statement of the call is the abstract
`fail : Nat → Bool`. -/

/-- One observable database action of `_insert_rows`. -/
inductive DbEvent
  | exec (stmt : Chars)
  | execFail (stmt : Chars)
  | commit
deriving DecidableEq, Repr

/-- `','.join(row)`. -/
def joinComma : List Chars → Chars
  | [] => []
  | [x] => x
  | x :: y :: rest => x ++ ',' :: joinComma (y :: rest)

/-- `template.format(arg)` for a template holding one `\x7b\x7d` placeholder:
substitute the argument for the first placeholder. -/
def formatBrace : Chars → Chars → Chars
  | [], _ => []
  | '{' :: '}' :: rest, arg => arg ++ rest
  | c :: rest, arg => c :: formatBrace rest arg

/-- The `for row in rows` loop of `_insert_rows` with running statement
counter `i` (starts at 1, incremented after each successful execute) and
call-local row index `k`. Per successful row: the execute, the batch commit
when `i % 5000 == 0` after the increment, and the unconditional commit at
the bottom of the loop body. A failed execute discards the cursor and
re-raises (`true` in the second component), ending the call. -/
def insertLoop (fail : Nat → Bool) (tmpl : Chars) :
    List (List Chars) → Nat → Nat → List DbEvent × Bool
  | [], _, _ => ([], false)
  | row :: rest, i, k =>
    let stmt := formatBrace tmpl (joinComma row)
    if fail k then ([DbEvent.execFail stmt], true)
    else
      let i2 := i + 1
      let batch : List DbEvent := if i2 % 5000 == 0 then [DbEvent.commit] else []
      let res := insertLoop fail tmpl rest i2 (k + 1)
      (DbEvent.exec stmt :: (batch ++ DbEvent.commit :: res.1), res.2)

/-- `_insert_rows(rows, insert_statement)`: the emitted database actions and
whether the call re-raised an execution error. -/
def insertRows (fail : Nat → Bool) (tmpl : Chars) (rows : List (List Chars)) :
    List DbEvent × Bool :=
  insertLoop fail tmpl rows 1 0

/-- Every successful execute is immediately followed by a commit. -/
def execsFollowedByCommit : List DbEvent → Bool
  | [] => true
  | DbEvent.exec _ :: DbEvent.commit :: rest => execsFollowedByCommit (DbEvent.commit :: rest)
  | DbEvent.exec _ :: _ => false
  | _ :: rest => execsFollowedByCommit rest

/-- The statements successfully executed in an event trace, in order. -/
def executedStmts (evs : List DbEvent) : List Chars :=
  evs.filterMap (fun e => match e with | DbEvent.exec s => some s | _ => Option.none)

/-- The statements whose execution raised, in order. -/
def failedStmts (evs : List DbEvent) : List Chars :=
  evs.filterMap (fun e => match e with | DbEvent.execFail s => some s | _ => Option.none)

/-! ## Concrete inputs used by witnesses and counterexamples -/

/-- A station row with numeric coordinates and a declared (null) `Shape`
field, mirroring `test_update_row_with_valid_lat_lon`. -/
def rowEx : Row := [(kLonX, Val.num (-114)), (kLatY, Val.num 40), (kShape, Val.none)]

/-- A station row whose longitude is exactly `0` (falsy). -/
def rowZeroLon : Row := [(kLonX, Val.num 0), (kLatY, Val.num 40), (kShape, Val.none)]

/-- An already-mapped station row with a bare (unmarked) id. -/
def rowBare : Row := [(kStationId, Val.str ("A-1".data))]

/-- An abstract reprojection outcome for witnesses. -/
def toUtmEx : Val → Val → Chars × Chars := fun _ _ => (['2', '4', '3'], ['4', '4', '3'])

/-- The result of `_update_row` on `rowEx` under `toUtmEx`: the data source
tag appended and the shape rewritten to the WKT literal. -/
def updRowEx : Row :=
  [(kLonX, Val.num (-114)), (kLatY, Val.num 40),
   (kShape, Val.str (wktTemplate (['2', '4', '3']) (['4', '4', '3']))),
   (kDataSource, wqpDataSource)]

/-- Identity collaborators: enough to exercise the station pipeline. -/
def seedParamsEx : SeedParams :=
  { cast := fun r => r
    normalizeStation := fun r => r
    reorderFilter := fun r => r
    castForSql := fun r => r
    toUtm := toUtmEx }

/-- A minimal insert-statement template (`v({})`) as characters. -/
def tmplEx : Chars := ['v', '(', '{', '}', ')']

/-- A file system with `WQP` and `WQP/Results` present but `WQP/Stations`
absent, under the root `/data`. -/
def isdirEx : String → Bool := fun p =>
  p == pathJoin ("/data") ("WQP") || p == pathJoin (pathJoin ("/data") ("WQP")) ("Results")

example : stripWqx ("UTAHDWQ_WQX-4904410".data) = ("UTAHDWQ-4904410".data) := by decide
example : hasWqx ("UTAHDWQ_WQX-4904410".data) = true := by decide
example : hasWqx ("UTAHDWQ-111".data) = false := by decide
example : likeWqx ("A_WQX-1".data) = true := by decide
example : likeWqx ("WQX-1".data) = false := by decide
example : truthy (Val.num 0) = false := by decide

/- test_wqx_duplicates_for_update (tests/test_programs.py lines 82-89) -/
example :
    getWqxDuplicateIds
      [[(kStationId, Val.str ("UTAHDWQ_WQX-4904410".data))],
       [(kStationId, Val.str ("UTAHDWQ_WQX-4904610".data))],
       [(kStationId, Val.str ("UTAHDWQ-111".data))]] =
    Except.ok [("UTAHDWQ-4904410".data), ("UTAHDWQ-4904610".data)] := rfl

/- test_remove_existing_wqx_station_ids_that_exist_in_database (lines 296-306):
the mocked database knows no station, `123-ABC` comes back as new, and the
bare candidate `1234` is dropped. -/
example :
    removeExistingWqxStationIds [] [("123_WQX-ABC".data), ("1234".data)] =
    [("123_WQX-ABC".data)] := by decide

/- test_remove_existing_wqx_station_ids_returns_ids_when_no_wqx (lines 308-313) -/
example :
    removeExistingWqxStationIds [] [("123".data), ("1234".data)] =
    [("123".data), ("1234".data)] := by decide

/-! ## Dictionary lemmas -/

theorem rget_rset_eq (r : Row) (k v : Val) : rget (rset r k v) k = some v := by
  induction r with
  | nil => simp [rset, rget]
  | cons p rest ih =>
    obtain ⟨a, b⟩ := p
    by_cases h : a = k
    · subst h
      simp [rset, rget]
    · simp [rset, rget, h, ih]

theorem rget_rset_ne (r : Row) (k v k' : Val) (h : k' ≠ k) :
    rget (rset r k v) k' = rget r k' := by
  induction r with
  | nil =>
    simp [rset, rget, (Ne.symm h : ¬ k = k')]
  | cons p rest ih =>
    obtain ⟨a, b⟩ := p
    by_cases ha : a = k
    · subst ha
      simp [rset, rget, (Ne.symm h : ¬ a = k')]
    · by_cases ha' : a = k'
      · subst ha'
        simp [rset, rget, ha]
      · simp [rset, rget, ha, ha', ih]

theorem rget_rset_isSome (r : Row) (k v k' : Val) :
    (rget (rset r k v) k').isSome = true ↔ ((rget r k').isSome = true ∨ k' = k) := by
  by_cases h : k' = k
  · subst h
    simp [rget_rset_eq]
  · rw [rget_rset_ne r k v k' h]
    simp [h]

/-! ## Claims C7, C9, C10: `_update_row` -/

theorem kLonX_ne_kDataSource : kLonX ≠ kDataSource := by decide

theorem kLatY_ne_kDataSource : kLatY ≠ kDataSource := by decide

theorem kShape_ne_kDataSource : kShape ≠ kDataSource := by decide

/-- Claim C7: for every station row with both `Lon_X` and `Lat_Y` set (truthy)
and a `Shape` field declared in the row, `_update_row` sets `Shape` to the
reprojected coordinate pair embedded in the fixed
`geometry::STGeomFromText` WKT template with SRID 26912; for every row whose
coordinates are present but where either is unset (falsy), the `Shape` field
is left unchanged and no exception is raised. -/
theorem updateRow_shape_spec (toUtm : Val → Val → Chars × Chars) (row : Row) (x y : Val)
    (hx : rget row kLonX = some x) (hy : rget row kLatY = some y) :
    ((truthy x && truthy y) = true → (rget row kShape).isSome = true →
      ∃ r', updateRow toUtm row = Except.ok r' ∧
        rget r' kShape = some (Val.str (wktTemplate (toUtm x y).1 (toUtm x y).2)))
    ∧ ((truthy x && truthy y) = false →
      ∃ r', updateRow toUtm row = Except.ok r' ∧ rget r' kShape = rget row kShape) := by
  have hx1 : rget (rset row kDataSource wqpDataSource) kLonX = some x := by
    rw [rget_rset_ne row kDataSource wqpDataSource kLonX kLonX_ne_kDataSource]
    exact hx
  have hy1 : rget (rset row kDataSource wqpDataSource) kLatY = some y := by
    rw [rget_rset_ne row kDataSource wqpDataSource kLatY kLatY_ne_kDataSource]
    exact hy
  have hs1 : rget (rset row kDataSource wqpDataSource) kShape = rget row kShape := by
    rw [rget_rset_ne row kDataSource wqpDataSource kShape kShape_ne_kDataSource]
  constructor
  · intro htr hsh
    refine ⟨rset (rset row kDataSource wqpDataSource) kShape
      (Val.str (wktTemplate (toUtm x y).1 (toUtm x y).2)), ?_, ?_⟩
    · simp only [updateRow, hx1, hy1, htr, Bool.not_true, Bool.false_eq_true, if_false, hs1]
      rw [if_neg]
      simp only [Option.isNone_iff_eq_none]
      intro hnone
      rw [hnone] at hsh
      simp at hsh
    · exact rget_rset_eq _ _ _
  · intro hf
    refine ⟨rset row kDataSource wqpDataSource, ?_, hs1⟩
    simp only [updateRow, hx1, hy1, hf, Bool.not_false, if_true]

/-- Witness for C7 at a concrete row: coordinates `(-114, 40)` and a declared
null `Shape`, mirroring `test_update_row_with_valid_lat_lon`. -/
theorem updateRow_shape_spec_witness :
    rget rowEx kLonX = some (Val.num (-114)) ∧ rget rowEx kLatY = some (Val.num 40) ∧
    (((truthy (Val.num (-114)) && truthy (Val.num 40)) = true →
        (rget rowEx kShape).isSome = true →
      ∃ r', updateRow toUtmEx rowEx = Except.ok r' ∧
        rget r' kShape = some (Val.str (wktTemplate
          (toUtmEx (Val.num (-114)) (Val.num 40)).1 (toUtmEx (Val.num (-114)) (Val.num 40)).2)))
    ∧ ((truthy (Val.num (-114)) && truthy (Val.num 40)) = false →
      ∃ r', updateRow toUtmEx rowEx = Except.ok r' ∧ rget r' kShape = rget rowEx kShape)) :=
  ⟨by decide, by decide,
   updateRow_shape_spec toUtmEx rowEx (Val.num (-114)) (Val.num 40) (by decide) (by decide)⟩

theorem kDataSource_ne_kShape : kDataSource ≠ kShape := by decide

/-- Claim C9: for every input row on which `_update_row` returns, it
overwrites `DataSource` with the constant `WQP`, changes `Shape` only when
the row already contains a `Shape` key and both coordinates are truthy,
leaves every other field unchanged, and neither adds nor removes any key
other than (possibly) `DataSource`. -/
theorem updateRow_frame (toUtm : Val → Val → Chars × Chars) (row r' : Row)
    (h : updateRow toUtm row = Except.ok r') :
    rget r' kDataSource = some wqpDataSource
    ∧ (∀ k, k ≠ kDataSource → k ≠ kShape → rget r' k = rget row k)
    ∧ (rget row kShape = Option.none → rget r' kShape = Option.none)
    ∧ (rget r' kShape ≠ rget row kShape →
        (rget row kShape).isSome = true
        ∧ (∃ x, rget row kLonX = some x ∧ truthy x = true)
        ∧ (∃ y, rget row kLatY = some y ∧ truthy y = true))
    ∧ (∀ k, (rget r' k).isSome = true ↔ ((rget row k).isSome = true ∨ k = kDataSource)) := by
  have hs1 : rget (rset row kDataSource wqpDataSource) kShape = rget row kShape :=
    rget_rset_ne row kDataSource wqpDataSource kShape kShape_ne_kDataSource
  simp only [updateRow] at h
  split at h
  case h_2 => exact absurd h (by simp)
  case h_1 x y hx1 hy1 =>
    have hx0 : rget row kLonX = some x := by
      rw [← rget_rset_ne row kDataSource wqpDataSource kLonX kLonX_ne_kDataSource]
      exact hx1
    have hy0 : rget row kLatY = some y := by
      rw [← rget_rset_ne row kDataSource wqpDataSource kLatY kLatY_ne_kDataSource]
      exact hy1
    split at h
    case isTrue htr =>
      have hr : r' = rset row kDataSource wqpDataSource := (Except.ok.injEq _ _).mp h.symm
      subst hr
      refine ⟨rget_rset_eq _ _ _, ?_, ?_, ?_, ?_⟩
      · intro k hk _
        exact rget_rset_ne row kDataSource wqpDataSource k hk
      · intro hnone
        rw [hs1]
        exact hnone
      · intro hne
        exact absurd hs1 hne
      · intro k
        exact rget_rset_isSome row kDataSource wqpDataSource k
    case isFalse htr =>
      split at h
      case isTrue hsh =>
        have hr : r' = rset row kDataSource wqpDataSource := (Except.ok.injEq _ _).mp h.symm
        subst hr
        refine ⟨rget_rset_eq _ _ _, ?_, ?_, ?_, ?_⟩
        · intro k hk _
          exact rget_rset_ne row kDataSource wqpDataSource k hk
        · intro hnone
          rw [hs1]
          exact hnone
        · intro hne
          exact absurd hs1 hne
        · intro k
          exact rget_rset_isSome row kDataSource wqpDataSource k
      case isFalse hsh =>
        have hr : r' = rset (rset row kDataSource wqpDataSource) kShape
            (Val.str (wktTemplate (toUtm x y).1 (toUtm x y).2)) := (Except.ok.injEq _ _).mp h.symm
        subst hr
        have htruthy : (truthy x && truthy y) = true := by
          revert htr
          simp
        have hshSome : (rget row kShape).isSome = true := by
          rw [← hs1]
          revert hsh
          simp [Option.isNone_iff_eq_none, Option.isSome_iff_ne_none]
        refine ⟨?_, ?_, ?_, ?_, ?_⟩
        · rw [rget_rset_ne _ kShape _ kDataSource kDataSource_ne_kShape]
          exact rget_rset_eq _ _ _
        · intro k hk hk'
          rw [rget_rset_ne _ kShape _ k hk', rget_rset_ne row kDataSource wqpDataSource k hk]
        · intro hnone
          rw [hnone] at hshSome
          simp at hshSome
        · intro _
          refine ⟨hshSome, ⟨x, hx0, ?_⟩, ⟨y, hy0, ?_⟩⟩
          · exact (Bool.and_eq_true _ _).mp htruthy |>.1
          · exact (Bool.and_eq_true _ _).mp htruthy |>.2
        · intro k
          rw [rget_rset_isSome, rget_rset_isSome]
          constructor
          · rintro ((hk | hk) | hk)
            · exact Or.inl hk
            · exact Or.inr hk
            · subst hk
              exact Or.inl hshSome
          · rintro (hk | hk)
            · exact Or.inl (Or.inl hk)
            · exact Or.inl (Or.inr hk)

/-- Witness for C9 at a concrete row: `_update_row` on `rowEx` returns
`updRowEx`, and the frame conditions hold there. -/
theorem updateRow_frame_witness :
    updateRow toUtmEx rowEx = Except.ok updRowEx
    ∧ (rget updRowEx kDataSource = some wqpDataSource
      ∧ (∀ k, k ≠ kDataSource → k ≠ kShape → rget updRowEx k = rget rowEx k)
      ∧ (rget rowEx kShape = Option.none → rget updRowEx kShape = Option.none)
      ∧ (rget updRowEx kShape ≠ rget rowEx kShape →
          (rget rowEx kShape).isSome = true
          ∧ (∃ x, rget rowEx kLonX = some x ∧ truthy x = true)
          ∧ (∃ y, rget rowEx kLatY = some y ∧ truthy y = true))
      ∧ (∀ k, (rget updRowEx k).isSome = true ↔
          ((rget rowEx k).isSome = true ∨ k = kDataSource))) :=
  ⟨rfl, updateRow_frame toUtmEx rowEx updRowEx rfl⟩

/-- Claim C10: coordinate presence in `_update_row` is decided by truthiness,
not key presence: when `Lon_X` or `Lat_Y` equals `0`, the empty string or
`None` (keys present), the row comes back with `Shape` untouched and the
result does not depend on the reprojection function at all. -/
theorem updateRow_zero_coordinate (toUtm : Val → Val → Chars × Chars) (row : Row) (x y : Val)
    (hx : rget row kLonX = some x) (hy : rget row kLatY = some y)
    (hfalsy : x = Val.num 0 ∨ x = Val.str [] ∨ x = Val.none
            ∨ y = Val.num 0 ∨ y = Val.str [] ∨ y = Val.none) :
    ∃ r', updateRow toUtm row = Except.ok r'
      ∧ rget r' kShape = rget row kShape
      ∧ ∀ toUtm2, updateRow toUtm2 row = updateRow toUtm row := by
  have hx1 : rget (rset row kDataSource wqpDataSource) kLonX = some x := by
    rw [rget_rset_ne row kDataSource wqpDataSource kLonX kLonX_ne_kDataSource]
    exact hx
  have hy1 : rget (rset row kDataSource wqpDataSource) kLatY = some y := by
    rw [rget_rset_ne row kDataSource wqpDataSource kLatY kLatY_ne_kDataSource]
    exact hy
  have hfb : (truthy x && truthy y) = false := by
    rcases hfalsy with h1 | h1 | h1 | h1 | h1 | h1 <;> subst h1 <;> simp [truthy]
  refine ⟨rset row kDataSource wqpDataSource, ?_, ?_, ?_⟩
  · simp only [updateRow, hx1, hy1, hfb, Bool.not_false, if_true]
  · exact rget_rset_ne row kDataSource wqpDataSource kShape kShape_ne_kDataSource
  · intro toUtm2
    simp only [updateRow, hx1, hy1, hfb, Bool.not_false, if_true]

/-- Witness for C10 at a concrete row whose longitude is exactly `0`. -/
theorem updateRow_zero_coordinate_witness :
    rget rowZeroLon kLonX = some (Val.num 0)
    ∧ rget rowZeroLon kLatY = some (Val.num 40)
    ∧ (∃ r', updateRow toUtmEx rowZeroLon = Except.ok r'
        ∧ rget r' kShape = rget rowZeroLon kShape
        ∧ ∀ toUtm2, updateRow toUtm2 rowZeroLon = updateRow toUtmEx rowZeroLon) :=
  ⟨by decide, by decide,
   updateRow_zero_coordinate toUtmEx rowZeroLon (Val.num 0) (Val.num 40)
     (by decide) (by decide) (Or.inl rfl)⟩

/-! ## Claim C8: `_etl_column_names` on already-mapped input -/

/-- Claim C8: the row mapper is idempotent on already-mapped input — a
dictionary keyed by destination field names passes through unchanged (no key
renamed, added or removed; in the source, `if type(rows) is dict: return
rows`). -/
theorem etlColumnNames_dict_idempotent (r : Row) (config : Config)
    (header : Option (List Val)) (hkeys : ∀ p ∈ r, p.1 ∈ config.map Prod.snd) :
    etlColumnNames (EtlInput.dict r) config header = EtlOutput.dict r := rfl

/-- Witness for C8: a row keyed by the destination name `StationId`. -/
theorem etlColumnNames_dict_idempotent_witness :
    (∀ p ∈ ([(kStationId, Val.num 1)] : Row), p.1 ∈ stationConfig.map Prod.snd)
    ∧ etlColumnNames (EtlInput.dict [(kStationId, Val.num 1)]) stationConfig Option.none
      = EtlOutput.dict [(kStationId, Val.num 1)] :=
  ⟨by decide,
   etlColumnNames_dict_idempotent [(kStationId, Val.num 1)] stationConfig Option.none (by decide)⟩

/-! ## Claim C4: the folder checks of `WqpProgram.__init__` -/

/-- Claim C4 is a code bug: with the program folder and its `Results` child
present but `Stations` absent, construction succeeds — the source checks
`isdir(results_folder or stations_folder)`, and `results_folder`, a
non-empty string, is always the value of the `or` — although the code's own
comment and error message say both children are required. -/
theorem wqpInit_missing_stations_not_detected :
    wqpInit isdirEx (some ("/data"))
      = Except.ok (some (pathJoin (pathJoin ("/data") ("WQP")) ("Results"),
                         pathJoin (pathJoin ("/data") ("WQP")) ("Stations")))
    ∧ isdirEx (pathJoin (pathJoin ("/data") ("WQP")) ("Stations")) = false := ⟨rfl, rfl⟩

/-! ## Claim C1: `_get_wqx_duplicate_ids` -/

theorem stationIdOf_ok {r : Row} {s : Chars} (h : stationIdOf r = Except.ok s) :
    rget r kStationId = some (Val.str s) := by
  unfold stationIdOf at h
  split at h
  case h_1 s' heq =>
    cases h
    exact heq
  case h_2 => exact absurd h (by simp)

/-- Counterexample to C1 as stated: a batch holding one marker-suffixed row
and no bare-form counterpart still contributes its stripped id to the
duplicate set, which the claim says should receive nothing from it. -/
theorem getWqxDuplicateIds_no_bare_counterpart :
    getWqxDuplicateIds [[(kStationId, Val.str ("A_WQX-1".data))]]
      = Except.ok [("A-1".data)]
    ∧ hasWqx ("A_WQX-1".data) = true
    ∧ ("A_WQX-1".data) ≠ ("A-1".data) :=
  ⟨rfl, by decide, by decide⟩

/-- Claim C1 as amended: the duplicate set contains exactly the stripped
forms of the marker-suffixed ids present in the batch — regardless of
whether a bare-form counterpart is present. For an in-memory batch these are
the rows whose `StationId` matches `wqx_re`; for a file batch, the ids the
`LIKE '%_WQX%'` query returns. -/
theorem wqxDuplicateIds_membership :
    (∀ (stations : List Row) (out : List Chars),
      getWqxDuplicateIds stations = Except.ok out →
      ∀ x, x ∈ out ↔ ∃ r, r ∈ stations ∧ ∃ s, rget r kStationId = some (Val.str s)
        ∧ hasWqx s = true ∧ x = stripWqx s)
    ∧ (∀ (fileIds : List Chars) (x : Chars),
        x ∈ getWqxDuplicateIdsFile fileIds
          ↔ ∃ s, s ∈ fileIds ∧ likeWqx s = true ∧ x = stripWqx s) := by
  constructor
  · intro stations
    induction stations with
    | nil =>
      intro out h x
      simp only [getWqxDuplicateIds] at h
      cases h
      simp
    | cons r rest ih =>
      intro out h x
      simp only [getWqxDuplicateIds] at h
      cases hsid : stationIdOf r with
      | error e =>
        rw [hsid] at h
        exact absurd h (by simp)
      | ok s =>
        rw [hsid] at h
        cases hrec : getWqxDuplicateIds rest with
        | error e =>
          rw [hrec] at h
          exact absurd h (by simp)
        | ok tail =>
          rw [hrec] at h
          have h' : (if hasWqx s then Except.ok (stripWqx s :: tail)
              else (Except.ok tail : Except Unit (List Chars))) = Except.ok out := h
          have hmem := fun z => ih tail hrec z
          have hr0 : rget r kStationId = some (Val.str s) := stationIdOf_ok hsid
          by_cases hwqx : hasWqx s = true
          · rw [if_pos hwqx] at h'
            cases h'
            constructor
            · intro hx
              rcases List.mem_cons.mp hx with hx | hx
              · exact ⟨r, List.mem_cons_self r rest, s, hr0, hwqx, hx⟩
              · rcases (hmem x).mp hx with ⟨r', hr', s', h1, h2, h3⟩
                exact ⟨r', List.mem_cons_of_mem r hr', s', h1, h2, h3⟩
            · rintro ⟨r', hr', s', h1, h2, h3⟩
              rcases List.mem_cons.mp hr' with hr' | hr'
              · subst hr'
                rw [hr0] at h1
                cases h1
                subst h3
                exact List.mem_cons_self _ _
              · exact List.mem_cons_of_mem _ ((hmem x).mpr ⟨r', hr', s', h1, h2, h3⟩)
          · rw [if_neg hwqx] at h'
            cases h'
            constructor
            · intro hx
              rcases (hmem x).mp hx with ⟨r', hr', s', h1, h2, h3⟩
              exact ⟨r', List.mem_cons_of_mem r hr', s', h1, h2, h3⟩
            · rintro ⟨r', hr', s', h1, h2, h3⟩
              rcases List.mem_cons.mp hr' with hr' | hr'
              · subst hr'
                rw [hr0] at h1
                cases h1
                exact absurd h2 hwqx
              · exact (hmem x).mpr ⟨r', hr', s', h1, h2, h3⟩
  · intro fileIds x
    simp only [getWqxDuplicateIdsFile, wqxIdsQueryRows, List.tail_cons, List.mem_map,
      List.mem_filter]
    constructor
    · rintro ⟨s, ⟨hs1, hs2⟩, hs3⟩
      exact ⟨s, hs1, hs2, hs3.symm⟩
    · rintro ⟨s, hs1, hs2, hs3⟩
      exact ⟨s, ⟨hs1, hs2⟩, hs3.symm⟩

/-- Witness for C1 (amended): both branches instantiated on concrete
marker-suffixed ids. -/
theorem wqxDuplicateIds_membership_witness :
    ("A-1".data) ∈ getWqxDuplicateIdsFile [("A_WQX-1".data)]
    ∧ (("A-1".data) ∈ [("A-1".data)] ↔
        ∃ r, r ∈ [[(kStationId, Val.str ("A_WQX-1".data))]]
          ∧ ∃ s, rget r kStationId = some (Val.str s)
            ∧ hasWqx s = true ∧ ("A-1".data) = stripWqx s) :=
  ⟨(wqxDuplicateIds_membership.2 [("A_WQX-1".data)] ("A-1".data)).mpr
      ⟨("A_WQX-1".data), by decide, by decide, by decide⟩,
   wqxDuplicateIds_membership.1 [[(kStationId, Val.str ("A_WQX-1".data))]]
      [("A-1".data)] rfl ("A-1".data)⟩

/-! ## Claims C5, C6: `_insert_rows` -/

theorem insertLoop_all_ok (fail : Nat → Bool) (tmpl : Chars) :
    ∀ (rows : List (List Chars)) (i k : Nat),
      (∀ j, j < rows.length → fail (k + j) = false) →
      execsFollowedByCommit (insertLoop fail tmpl rows i k).1 = true
      ∧ ((insertLoop fail tmpl rows i k).1.getLast? = some DbEvent.commit ∨ rows = [])
      ∧ (insertLoop fail tmpl rows i k).2 = false := by
  intro rows
  induction rows with
  | nil =>
    intro i k _
    exact ⟨rfl, Or.inr rfl, rfl⟩
  | cons row rest ih =>
    intro i k h
    have hk : fail k = false := by
      have := h 0 (by simp)
      simpa using this
    have hshift : ∀ j, j < rest.length → fail (k + 1 + j) = false := by
      intro j hj
      have := h (j + 1) (by simp; omega)
      rw [show k + 1 + j = k + (j + 1) from by omega]
      exact this
    obtain ⟨h1, h2, h3⟩ := ih (i + 1) (k + 1) hshift
    simp only [insertLoop, hk, Bool.false_eq_true, if_false]
    set evs := (insertLoop fail tmpl rest (i + 1) (k + 1)).1 with hevs
    refine ⟨?_, Or.inl ?_, h3⟩
    · by_cases hb : (i + 1) % 5000 == 0
      · simp only [hb, if_true, List.cons_append, List.singleton_append]
        simp [execsFollowedByCommit, h1]
      · simp only [hb, Bool.false_eq_true, if_false, List.nil_append]
        simp [execsFollowedByCommit, h1]
    · rcases h2 with h2 | h2
      · have hne : evs ≠ [] := by
          intro hnil
          rw [hnil] at h2
          exact absurd h2 (by simp)
        rw [show DbEvent.exec (formatBrace tmpl (joinComma row)) ::
            ((if (i + 1) % 5000 == 0 then [DbEvent.commit] else []) ++ DbEvent.commit :: evs)
          = (DbEvent.exec (formatBrace tmpl (joinComma row)) ::
              ((if (i + 1) % 5000 == 0 then [DbEvent.commit] else []) ++ [DbEvent.commit]))
            ++ evs from by simp]
        rw [List.getLast?_append, h2]
        rfl
      · subst h2
        have : evs = [] := by
          rw [hevs]
          rfl
        rw [this]
        by_cases hb : (i + 1) % 5000 == 0
        · simp [hb]
        · simp [hb]

/-- Counterexample to C5 as stated: a call with an (empty) list of rows
issues no commit at all, against "a commit is issued at least once per
call". -/
theorem insertRows_empty_call_no_commit :
    insertRows (fun _ => false) tmplEx [] = ([], false) := rfl

/-- Claim C5 as amended: for every call with a nonempty list of rows whose
executions all succeed, every executed row is immediately followed by a
commit — hence at least one commit per such call, at least one commit per
5000 rows, and a commit unconditionally after the final row; the call
re-raises nothing. A call with no rows issues no commit. -/
theorem insertRows_commit_discipline (fail : Nat → Bool) (tmpl : Chars)
    (rows : List (List Chars)) (hne : rows ≠ [])
    (hok : ∀ k, k < rows.length → fail k = false) :
    execsFollowedByCommit (insertRows fail tmpl rows).1 = true
    ∧ (insertRows fail tmpl rows).1.getLast? = some DbEvent.commit
    ∧ DbEvent.commit ∈ (insertRows fail tmpl rows).1
    ∧ (insertRows fail tmpl rows).2 = false := by
  obtain ⟨h1, h2, h3⟩ := insertLoop_all_ok fail tmpl rows 1 0 (by
    intro j hj
    simpa using hok j hj)
  rcases h2 with h2 | h2
  · exact ⟨h1, h2, List.mem_of_mem_getLast? (Option.mem_def.mpr h2), h3⟩
  · exact absurd h2 hne

/-- Witness for C5 (amended) at a one-row call that succeeds. -/
theorem insertRows_commit_discipline_witness :
    (([[(['a'] : Chars)]] : List (List Chars)) ≠ [])
    ∧ (execsFollowedByCommit (insertRows (fun _ => false) tmplEx [[(['a'] : Chars)]]).1 = true
      ∧ (insertRows (fun _ => false) tmplEx [[(['a'] : Chars)]]).1.getLast?
          = some DbEvent.commit
      ∧ DbEvent.commit ∈ (insertRows (fun _ => false) tmplEx [[(['a'] : Chars)]]).1
      ∧ (insertRows (fun _ => false) tmplEx [[(['a'] : Chars)]]).2 = false) :=
  ⟨by decide,
   insertRows_commit_discipline (fun _ => false) tmplEx [[(['a'] : Chars)]]
     (by decide) (fun k _ => rfl)⟩

theorem insertLoop_abort (fail : Nat → Bool) (tmpl : Chars) :
    ∀ (rows : List (List Chars)) (i k0 k : Nat) (hk : k < rows.length),
      (∀ j, j < k → fail (k0 + j) = false) → fail (k0 + k) = true →
      (insertLoop fail tmpl rows i k0).2 = true
      ∧ executedStmts (insertLoop fail tmpl rows i k0).1
          = (rows.take k).map (fun r => formatBrace tmpl (joinComma r))
      ∧ failedStmts (insertLoop fail tmpl rows i k0).1
          = [formatBrace tmpl (joinComma (rows.get ⟨k, hk⟩))] := by
  intro rows
  induction rows with
  | nil =>
    intro i k0 k hk
    exact absurd hk (by simp)
  | cons row rest ih =>
    intro i k0 k hk hpre hfk
    cases k with
    | zero =>
      have h0 : fail k0 = true := by simpa using hfk
      simp [insertLoop, h0, executedStmts, failedStmts]
    | succ n =>
      have h0 : fail k0 = false := by
        have := hpre 0 (by omega)
        simpa using this
      have hn : n < rest.length := by simpa using Nat.lt_of_succ_lt_succ hk
      obtain ⟨a1, a2, a3⟩ := ih (i + 1) (k0 + 1) n hn
        (by
          intro j hj
          have := hpre (j + 1) (by omega)
          rw [show k0 + 1 + j = k0 + (j + 1) from by omega]
          exact this)
        (by
          rw [show k0 + 1 + n = k0 + (n + 1) from by omega]
          exact hfk)
      simp only [insertLoop, h0, Bool.false_eq_true, if_false]
      refine ⟨a1, ?_, ?_⟩
      · by_cases hb : (i + 1) % 5000 == 0
        · simp [hb, executedStmts, List.filterMap_cons, List.filterMap_append] at a2 ⊢
          exact a2
        · simp [hb, executedStmts, List.filterMap_cons, List.filterMap_append] at a2 ⊢
          exact a2
      · by_cases hb : (i + 1) % 5000 == 0
        · simp [hb, failedStmts, List.filterMap_cons, List.filterMap_append] at a3 ⊢
          exact a3
        · simp [hb, failedStmts, List.filterMap_cons, List.filterMap_append] at a3 ⊢
          exact a3

/-- Claim C6: if executing the statement for row `k` raises, the error is
re-raised (the cursor attribute having been discarded), exactly the
statements of rows `0..k-1` were executed — each exactly once, so no retry —
and the statements of rows after `k` are never executed. -/
theorem insertRows_abort_on_error (fail : Nat → Bool) (tmpl : Chars)
    (rows : List (List Chars)) (k : Nat) (hk : k < rows.length)
    (hpre : ∀ j, j < k → fail j = false) (hfk : fail k = true) :
    (insertRows fail tmpl rows).2 = true
    ∧ executedStmts (insertRows fail tmpl rows).1
        = (rows.take k).map (fun r => formatBrace tmpl (joinComma r))
    ∧ failedStmts (insertRows fail tmpl rows).1
        = [formatBrace tmpl (joinComma (rows.get ⟨k, hk⟩))] :=
  insertLoop_abort fail tmpl rows 1 0 k hk (by simpa using hpre) (by simpa using hfk)

/-- Witness for C6: a three-row call whose second execution fails. -/
theorem insertRows_abort_on_error_witness :
    (1 < ([[(['a'] : Chars)], [(['b'] : Chars)], [(['c'] : Chars)]] : List (List Chars)).length)
    ∧ ((insertRows (fun n => n == 1) tmplEx
          [[(['a'] : Chars)], [(['b'] : Chars)], [(['c'] : Chars)]]).2 = true
      ∧ executedStmts (insertRows (fun n => n == 1) tmplEx
          [[(['a'] : Chars)], [(['b'] : Chars)], [(['c'] : Chars)]]).1
        = (([[(['a'] : Chars)], [(['b'] : Chars)], [(['c'] : Chars)]] :
            List (List Chars)).take 1).map (fun r => formatBrace tmplEx (joinComma r))
      ∧ failedStmts (insertRows (fun n => n == 1) tmplEx
          [[(['a'] : Chars)], [(['b'] : Chars)], [(['c'] : Chars)]]).1
        = [formatBrace tmplEx (joinComma (([[(['a'] : Chars)], [(['b'] : Chars)],
            [(['c'] : Chars)]] : List (List Chars)).get ⟨1, by decide⟩))]) :=
  ⟨by decide,
   insertRows_abort_on_error (fun n => n == 1) tmplEx
     [[(['a'] : Chars)], [(['b'] : Chars)], [(['c'] : Chars)]] 1 (by decide)
     (by decide) (by decide)⟩

/-! ## Claim C2: `_remove_existing_wqx_station_ids` -/

theorem erase_get_of_nodup :
    ∀ (l : List Chars) (i : Nat) (h : i < l.length), l.Nodup →
      l.erase (l.get ⟨i, h⟩) = l.take i ++ l.drop (i + 1) := by
  intro l
  induction l with
  | nil =>
    intro i h
    simp at h
  | cons a rest ih =>
    intro i h hnd
    cases i with
    | zero => simp
    | succ n =>
      have hn : n < rest.length := by
        have h2 := h
        simp only [List.length_cons] at h2
        omega
      have hnotmem : a ∉ rest := (List.nodup_cons.mp hnd).1
      have hne : ¬(a == rest.get ⟨n, hn⟩) = true := by
        intro hbeq
        refine hnotmem ?_
        have heq := eq_of_beq hbeq
        rw [heq]
        exact rest.get_mem n hn
      have hget : (a :: rest).get ⟨n + 1, h⟩ = rest.get ⟨n, hn⟩ := rfl
      rw [hget, List.erase_cons_tail hne, List.take_succ_cons, List.drop_succ_cons,
        ih n hn (List.nodup_cons.mp hnd).2]
      rfl

theorem pyForRemoveAux_stop (p : Chars → Bool) (fuel : Nat) (lst : List Chars) (idx : Nat)
    (h : lst.length ≤ idx) : pyForRemoveAux p fuel lst idx = lst := by
  cases fuel with
  | zero => rfl
  | succ n => simp [pyForRemoveAux, Nat.not_lt.mpr h]

theorem pyForRemoveAux_step (p : Chars → Bool) (fuel : Nat) (lst : List Chars) (idx : Nat)
    (h : idx < lst.length) :
    pyForRemoveAux p (fuel + 1) lst idx =
      if p (lst.get ⟨idx, h⟩) then
        pyForRemoveAux p fuel (lst.erase (lst.get ⟨idx, h⟩)) (idx + 1)
      else pyForRemoveAux p fuel lst (idx + 1) := by
  simp [pyForRemoveAux, h]

/-- On a duplicate-free list, Python's mutate-while-iterating removal loop is
the left-to-right scan that skips the element after each removal. -/
theorem pyForRemoveAux_eq_scan (p : Chars → Bool) :
    ∀ (fuel : Nat) (lst : List Chars) (idx : Nat),
      lst.length - idx ≤ fuel → lst.Nodup →
      pyForRemoveAux p fuel lst idx = lst.take idx ++ scanRemoveSkip p (lst.drop idx) := by
  intro fuel
  induction fuel with
  | zero =>
    intro lst idx hf hnd
    have hle : lst.length ≤ idx := by omega
    rw [List.drop_of_length_le hle, List.take_of_length_le hle]
    simp [pyForRemoveAux, scanRemoveSkip]
  | succ fuel ih =>
    intro lst idx hf hnd
    by_cases h : idx < lst.length
    · have hdropeq : lst.drop idx = lst.get ⟨idx, h⟩ :: lst.drop (idx + 1) :=
        (@List.cons_get_drop_succ Chars lst ⟨idx, h⟩).symm
      rw [pyForRemoveAux_step p fuel lst idx h]
      by_cases hp : p (lst.get ⟨idx, h⟩) = true
      · rw [if_pos hp]
        have herase : lst.erase (lst.get ⟨idx, h⟩) = lst.take idx ++ lst.drop (idx + 1) :=
          erase_get_of_nodup lst idx h hnd
        have hAlen : (lst.take idx).length = idx := by
          simp [List.length_take]
          omega
        cases hB : lst.drop (idx + 1) with
        | nil =>
          rw [herase, hB]
          have hstople : (lst.take idx ++ ([] : List Chars)).length ≤ idx + 1 := by
            simp [hAlen]
          rw [pyForRemoveAux_stop p fuel _ (idx + 1) hstople]
          rw [hdropeq, hB]
          have hscan : scanRemoveSkip p (lst.get ⟨idx, h⟩ :: []) = [] := by
            simp only [scanRemoveSkip]
            rw [if_pos hp]
          rw [hscan]
        | cons y B2 =>
          have hBlen : (lst.drop (idx + 1)).length = lst.length - (idx + 1) :=
            List.length_drop _ _
          have hlen' : (lst.take idx ++ y :: B2).length - (idx + 1) ≤ fuel := by
            have : (y :: B2).length = lst.length - (idx + 1) := by
              rw [← hB]
              exact hBlen
            simp [hAlen, this]
            omega
          have hnd' : (lst.take idx ++ y :: B2).Nodup := by
            rw [← hB, ← herase]
            exact hnd.erase _
          rw [herase, hB, ih (lst.take idx ++ y :: B2) (idx + 1) hlen' hnd']
          have htake : (lst.take idx ++ y :: B2).take (idx + 1) = lst.take idx ++ [y] := by
            rw [List.take_append_eq_append_take]
            rw [List.take_of_length_le (by omega), hAlen]
            simp
          have hdrop : (lst.take idx ++ y :: B2).drop (idx + 1) = B2 := by
            rw [List.drop_append_eq_append_drop]
            rw [List.drop_of_length_le (by omega), hAlen]
            simp
          rw [htake, hdrop, hdropeq, hB]
          have hscan : scanRemoveSkip p (lst.get ⟨idx, h⟩ :: y :: B2)
              = y :: scanRemoveSkip p B2 := by
            simp only [scanRemoveSkip]
            rw [if_pos hp]
          rw [hscan, List.append_assoc]
          rfl
      · rw [if_neg hp]
        have hlen' : lst.length - (idx + 1) ≤ fuel := by omega
        rw [ih lst (idx + 1) hlen' hnd]
        rw [hdropeq]
        cases hB : lst.drop (idx + 1) with
        | nil =>
          have hscan : scanRemoveSkip p (lst.get ⟨idx, h⟩ :: ([] : List Chars))
              = [lst.get ⟨idx, h⟩] := by
            simp only [scanRemoveSkip]
            rw [if_neg hp]
          rw [hscan]
          rw [show scanRemoveSkip p ([] : List Chars) = [] from rfl]
          rw [← List.take_concat_get' lst idx h]
          simp
        | cons y B2 =>
          have hscan : scanRemoveSkip p (lst.get ⟨idx, h⟩ :: y :: B2)
              = lst.get ⟨idx, h⟩ :: scanRemoveSkip p (y :: B2) := by
            simp only [scanRemoveSkip]
            rw [if_neg hp]
          rw [hscan, ← List.take_concat_get' lst idx h, List.append_assoc]
          rfl
    · have hle : lst.length ≤ idx := Nat.not_lt.mp h
      rw [pyForRemoveAux_stop p (fuel + 1) lst idx hle]
      rw [List.drop_of_length_le hle, List.take_of_length_le hle]
      simp [scanRemoveSkip]

/-- Counterexample to C2 as stated: with no station stored in the
destination, the candidate batch `[ABC_WQX-1, XYZ-2]` loses its bare member
`XYZ-2` — the claim says every bare candidate is retained. -/
theorem removeExistingWqx_drops_bare_id :
    removeExistingWqxStationIds [] [("ABC_WQX-1".data), ("XYZ-2".data)]
      = [("ABC_WQX-1".data)]
    ∧ hasWqx ("XYZ-2".data) = false := ⟨by decide, by decide⟩

/-- Claim C2 as amended: with no marker-suffixed candidate the list is
returned unchanged; otherwise (for duplicate-free candidate lists) the
function performs a single left-to-right pass that removes every visited
candidate — bare or marker-suffixed — whose stripped id is not among the
stripped forms of the marker-suffixed candidates absent from the
destination, and, because the list is mutated during iteration, the
candidate immediately after a removed one is skipped and always retained. -/
theorem removeExistingWqx_characterization (db : List Chars) (stationIds : List Chars)
    (hnd : stationIds.Nodup) :
    ((stationIds.filter hasWqx).isEmpty = true →
      removeExistingWqxStationIds db stationIds = stationIds)
    ∧ ((stationIds.filter hasWqx).isEmpty = false →
      removeExistingWqxStationIds db stationIds =
        scanRemoveSkip (fun id => !inUniques db stationIds (stripWqx id)) stationIds) := by
  constructor
  · intro hempty
    simp [removeExistingWqxStationIds, hempty]
  · intro hempty
    rw [removeExistingWqxStationIds, if_neg (by simp [hempty])]
    rw [pyForRemove]
    rw [pyForRemoveAux_eq_scan _ _ _ _ (by omega) hnd]
    simp

/-- Witness for C2 (amended): the test batch `[123_WQX-ABC, 1234]` against an
empty destination. -/
theorem removeExistingWqx_characterization_witness :
    (([("123_WQX-ABC".data), ("1234".data)] : List Chars).Nodup)
    ∧ (((([("123_WQX-ABC".data), ("1234".data)] : List Chars).filter hasWqx).isEmpty = true →
        removeExistingWqxStationIds [] [("123_WQX-ABC".data), ("1234".data)]
          = [("123_WQX-ABC".data), ("1234".data)])
      ∧ ((([("123_WQX-ABC".data), ("1234".data)] : List Chars).filter hasWqx).isEmpty = false →
        removeExistingWqxStationIds [] [("123_WQX-ABC".data), ("1234".data)]
          = scanRemoveSkip
              (fun id => !inUniques [] [("123_WQX-ABC".data), ("1234".data)] (stripWqx id))
              [("123_WQX-ABC".data), ("1234".data)])) :=
  ⟨by decide,
   removeExistingWqx_characterization [] [("123_WQX-ABC".data), ("1234".data)] (by decide)⟩

/-! ## Claim C3: the skip rule of `_seed_stations` -/

theorem seedStations_skip (p : SeedParams) (header : Option (List Val)) (wqx : List Chars)
    (row : EtlInput) (hrow : seedStationRow p header wqx row = Except.ok Option.none) :
    ∀ (pre post : List EtlInput),
      seedStations p header wqx (pre ++ row :: post)
        = seedStations p header wqx (pre ++ post) := by
  intro pre
  induction pre with
  | nil =>
    intro post
    simp only [List.nil_append, seedStations]
    rw [hrow]
  | cons a pre' ih =>
    intro post
    simp only [List.cons_append, seedStations]
    cases hsr : seedStationRow p header wqx a with
    | error e => rfl
    | ok res =>
      cases res with
      | none => exact ih post
      | some vals =>
        show (match seedStations p header wqx (pre' ++ row :: post) with
            | Except.error e => Except.error e
            | Except.ok out => Except.ok (vals :: out))
          = (match seedStations p header wqx (pre' ++ post) with
            | Except.error e => Except.error e
            | Except.ok out => Except.ok (vals :: out))
        rw [ih post]

theorem seedStations_ok_mem (p : SeedParams) (header : Option (List Val)) (wqx : List Chars) :
    ∀ (lst : List EtlInput) (out : List (List Val)),
      seedStations p header wqx lst = Except.ok out →
      ∀ row ∈ lst, ∃ res, seedStationRow p header wqx row = Except.ok res
        ∧ ∀ vals, res = some vals → vals ∈ out := by
  intro lst
  induction lst with
  | nil =>
    intro out _ row hrow
    exact absurd hrow (by simp)
  | cons a rest ih =>
    intro out h row hrow
    simp only [seedStations] at h
    cases hsr : seedStationRow p header wqx a with
    | error e =>
      rw [hsr] at h
      exact absurd h (by simp)
    | ok res =>
      rw [hsr] at h
      cases res with
      | none =>
        rcases List.mem_cons.mp hrow with hrow | hrow
        · subst hrow
          refine ⟨Option.none, hsr, ?_⟩
          intro vals hv
          cases hv
        · exact ih out h row hrow
      | some vals =>
        cases hrec : seedStations p header wqx rest with
        | error e =>
          rw [hrec] at h
          exact absurd h (by simp)
        | ok outRest =>
          rw [hrec] at h
          have h2 : (Except.ok (vals :: outRest) : Except Unit (List (List Val)))
              = Except.ok out := h
          obtain rfl := (Except.ok.injEq _ _).mp h2
          rcases List.mem_cons.mp hrow with hrow | hrow
          · subst hrow
            refine ⟨some vals, hsr, ?_⟩
            intro v hv
            cases hv
            exact List.mem_cons_self _ _
          · obtain ⟨res, hres, hmem⟩ := ih outRest hrec row hrow
            exact ⟨res, hres, fun v hv => List.mem_cons_of_mem _ (hmem v hv)⟩

/-- Claim C3: during a full load, a station row whose mapped `StationId` is
bare (no `_WQX-` marker) and sits in the duplicate set is skipped and
contributes nothing to the rows handed to the sink; every other row is piped
through cast / `_update_row` / normalize / reorder-filter / SQL-render, and
its rendered values are among the rows enqueued for insertion. -/
theorem seedStations_duplicate_policy (p : SeedParams) (header : Option (List Val))
    (wqx : List Chars) (pre post : List EtlInput) (row : EtlInput) (r : Row) (s : Chars)
    (hetl : etlColumnNames row stationConfig header = EtlOutput.dict r)
    (hsid : rget r kStationId = some (Val.str s)) :
    (hasWqx s = false → wqx.contains s = true →
      seedStations p header wqx (pre ++ row :: post)
        = seedStations p header wqx (pre ++ post))
    ∧ ((hasWqx s = true ∨ wqx.contains s = false) →
      ∀ out, seedStations p header wqx (pre ++ row :: post) = Except.ok out →
        ∃ r3 vals, updateRow p.toUtm (p.cast r) = Except.ok r3
          ∧ vals = rowValues (p.castForSql (p.reorderFilter (p.normalizeStation r3)))
          ∧ vals ∈ out) := by
  constructor
  · intro hbare hmem
    apply seedStations_skip
    simp only [seedStationRow, hetl, hsid]
    rw [if_pos (show (!hasWqx s && wqx.contains s) = true from by rw [hbare, hmem]; rfl)]
  · intro hcase out hout
    have hrowmem : row ∈ pre ++ row :: post :=
      List.mem_append.mpr (Or.inr (List.mem_cons_self _ _))
    obtain ⟨res, hres, hmemout⟩ :=
      seedStations_ok_mem p header wqx (pre ++ row :: post) out hout row hrowmem
    simp only [seedStationRow, hetl, hsid] at hres
    have hcond : (!hasWqx s && wqx.contains s) = false := by
      rcases hcase with hc | hc
      · rw [hc]
        rfl
      · rw [hc]
        exact Bool.and_false _
    rw [hcond] at hres
    simp only [Bool.false_eq_true, if_false] at hres
    cases hupd : updateRow p.toUtm (p.cast r) with
    | error e =>
      rw [hupd] at hres
      exact absurd hres (by simp)
    | ok r3 =>
      rw [hupd] at hres
      have hres2 : (Except.ok (some (rowValues (p.castForSql (p.reorderFilter
          (p.normalizeStation r3))))) : Except Unit (Option (List Val))) = Except.ok res := hres
      obtain rfl := (Except.ok.injEq _ _).mp hres2
      refine ⟨r3, rowValues (p.castForSql (p.reorderFilter (p.normalizeStation r3))),
        rfl, rfl, ?_⟩
      exact hmemout _ rfl

/-- Witness for C3: a bare id present in the duplicate set — the skip branch
fires and the batch collapses to the empty batch. -/
theorem seedStations_duplicate_policy_witness :
    etlColumnNames (EtlInput.dict rowBare) stationConfig Option.none = EtlOutput.dict rowBare
    ∧ rget rowBare kStationId = some (Val.str ("A-1".data))
    ∧ ((hasWqx ("A-1".data) = false →
          ([("A-1".data)] : List Chars).contains ("A-1".data) = true →
        seedStations seedParamsEx Option.none [("A-1".data)]
            ([] ++ EtlInput.dict rowBare :: [])
          = seedStations seedParamsEx Option.none [("A-1".data)] ([] ++ []))
      ∧ ((hasWqx ("A-1".data) = true
            ∨ ([("A-1".data)] : List Chars).contains ("A-1".data) = false) →
        ∀ out, seedStations seedParamsEx Option.none [("A-1".data)]
            ([] ++ EtlInput.dict rowBare :: []) = Except.ok out →
          ∃ r3 vals, updateRow seedParamsEx.toUtm (seedParamsEx.cast rowBare) = Except.ok r3
            ∧ vals = rowValues (seedParamsEx.castForSql (seedParamsEx.reorderFilter
                (seedParamsEx.normalizeStation r3)))
            ∧ vals ∈ out)) :=
  ⟨rfl, by decide,
   seedStations_duplicate_policy seedParamsEx Option.none [("A-1".data)] [] []
     (EtlInput.dict rowBare) rowBare ("A-1".data) rfl (by decide)⟩
